import Mathlib

/-!
Verification model of the region-template PDF data extractor (src/main.py).

The program lets a user draw named rectangular regions on one page of a
rasterized PDF and then runs OCR over the rescaled regions on every page,
assembling one table row per page.  The definitions below embed the pure
computational core of the script: the text cleanup and guard logic of
perform_ocr, the language-code selection, the region identity keys and
default field names, the canvas-to-source coordinate scaling, the per-page
row-assembly loop (with Python dict insertion-order semantics), the template
save/load document, and the scale-factor divisions with their Python
zero-division behaviour.  External collaborators (PIL cropping, the
preprocessing image operations, pytesseract) are passed in as function
parameters, with fallible ones returning Except to model raised exceptions.
-/

/-- Whitespace characters recognised by Python str.strip. -/
def isPyWhitespace (c : Char) : Bool :=
  c == ' ' || c == '\t' || c == '\n' || c == '\r' || c == '\x0b' || c == '\x0c'

/-- Python str.strip: drop leading and trailing whitespace characters. -/
def stripChars (l : List Char) : List Char :=
  ((l.dropWhile isPyWhitespace).reverse.dropWhile isPyWhitespace).reverse

/-- Python str.replace of a one-character pattern, applied charwise: every
newline character becomes one space (main.py line 69). -/
def replaceNl (l : List Char) : List Char :=
  l.map (fun c => if c = '\n' then ' ' else c)

/-- Text cleanup performed by perform_ocr on recognised text (main.py line 69):
text.strip() followed by replacing each newline with a space. -/
def cleanText (s : String) : String :=
  String.mk (replaceNl (stripChars s.data))

/-- Whether a character list begins with a Python whitespace character. -/
def startsWithWs : List Char → Bool
  | [] => false
  | c :: _ => isPyWhitespace c

/-- Whether a character list contains a newline character. -/
def containsNewline (l : List Char) : Bool :=
  l.any (fun c => c == '\n')

/-- Whether a character list contains two spaces in a row. -/
def hasConsecutiveSpaces : List Char → Bool
  | c1 :: c2 :: rest => (c1 == ' ' && c2 == ' ') || hasConsecutiveSpaces (c2 :: rest)
  | _ => false

/-- Python int() applied to a rational: truncation toward zero. -/
def pyInt (q : ℚ) : ℤ := Int.tdiv q.num (q.den : ℤ)

/-- Region geometry as produced by the drawing canvas: the left, top, width and
height entries of one rectangle object (canvas-space floating point values,
modelled as rationals). -/
structure Region where
  left : ℚ
  top : ℚ
  width : ℚ
  height : ℚ
  deriving DecidableEq

/-- Identity key of the region at 0-based ordinal i, combining the ordinal with
the integer-truncated canvas-space left and top (main.py lines 176 and 205). -/
def regionKey (i : ℕ) (r : Region) : String :=
  "region_" ++ toString i ++ "_" ++ toString (pyInt r.left) ++ "_" ++ toString (pyInt r.top)

/-- Lookup in the field_names mapping, modelled as an insertion-ordered
association list with Python dict semantics. -/
def lookupName (fieldNames : List (String × String)) (k : String) : Option String :=
  (fieldNames.find? (fun q => q.1 == k)).map Prod.snd

/-- Default-or-stored field name shown in the naming form (main.py line 177):
field_names.get(region_key, "Field_" followed by the 1-based ordinal). -/
def formDefaultName (fieldNames : List (String × String)) (i : ℕ) (r : Region) : String :=
  (lookupName fieldNames (regionKey i r)).getD ("Field_" ++ toString (i + 1))

/-- Field name used for a region at extraction time (main.py line 206), the
same lookup-with-default as in the naming form. -/
def fieldNameFor (fieldNames : List (String × String)) (i : ℕ) (r : Region) : String :=
  (lookupName fieldNames (regionKey i r)).getD ("Field_" ++ toString (i + 1))

/-- field_names_list built in the extract-data block (main.py lines 204 to 206). -/
def fieldNamesList (fieldNames : List (String × String)) (regions : List Region) : List String :=
  regions.enum.map (fun q => fieldNameFor fieldNames q.1 q.2)

/-- OCR language code selection inside perform_ocr (main.py lines 62 to 66):
default eng, Hindi mapped to hin, English + Hindi mapped to eng+hin. -/
def langCode (language : String) : String :=
  if language = "Hindi" then "hin"
  else if language = "English + Hindi" then "eng+hin"
  else "eng"

/-- Options offered by the language selectbox (main.py line 115). -/
def languageOptions : List String := ["English", "Hindi", "English + Hindi"]

/-- Scaled bounding box appended to scaled_boxes (main.py lines 207 to 210):
each coordinate multiplied by the per-axis scale factor. -/
def scaledBox (scaleW scaleH : ℚ) (r : Region) : Region :=
  { left := r.left * scaleW, top := r.top * scaleH,
    width := r.width * scaleW, height := r.height * scaleH }

/-- All scaled boxes of a region list, in region order. -/
def scaledBoxes (scaleW scaleH : ℚ) (regions : List Region) : List Region :=
  regions.map (scaledBox scaleW scaleH)

/-- Body of the try block of perform_ocr (main.py lines 49 to 69).  The crop
and recognition collaborators may fail, modelled with Except; a box whose
truncated width or height is not positive skips recognition and yields none,
meaning the try block fell through without returning. -/
def performOcrAttempt {α : Type} (crop : α → ℤ → ℤ → ℤ → ℤ → Except String α)
    (preprocess : α → List String → α)
    (imageToString : α → String → Except String String)
    (image : α) (box : Region) (language : String) (opts : List String) :
    Except String (Option String) :=
  let left := pyInt box.left
  let top := pyInt box.top
  let width := pyInt box.width
  let height := pyInt box.height
  if 0 < width ∧ 0 < height then do
    let cropped ← crop image left top (left + width) (top + height)
    let processed := preprocess cropped opts
    let text ← imageToString processed (langCode language)
    pure (some (cleanText text))
  else
    pure none

/-- perform_ocr (main.py lines 47 to 72): a raised failure is caught by the
except clause and the function returns the empty string, as it also does when
the degenerate-box guard skips recognition. -/
def performOcr {α : Type} (crop : α → ℤ → ℤ → ℤ → ℤ → Except String α)
    (preprocess : α → List String → α)
    (imageToString : α → String → Except String String)
    (image : α) (box : Region) (language : String) (opts : List String) : String :=
  match performOcrAttempt crop preprocess imageToString image box language opts with
  | Except.ok (some s) => s
  | Except.ok none => ""
  | Except.error _ => ""

/-- Value stored in one result-row cell: the integer page number or an
extracted string. -/
inductive Cell
  | num (n : ℕ)
  | str (s : String)
  deriving DecidableEq

/-- Python dict assignment on an insertion-ordered association list: an
existing key keeps its position and receives the new value, a fresh key is
appended at the end. -/
def dictInsert : List (String × Cell) → String → Cell → List (String × Cell)
  | [], k, v => [(k, v)]
  | q :: rest, k, v => if q.1 = k then (q.1, v) :: rest else q :: dictInsert rest k v

/-- Successive dict assignments, one per (field name, extracted text) pair of
the per-region loop of one page (main.py lines 216 to 218). -/
def insertCells : List (String × Cell) → List (String × String) → List (String × Cell)
  | row, [] => row
  | row, s :: rest => insertCells (dictInsert row s.1 (Cell.str s.2)) rest

/-- page_data for one page (main.py lines 215 to 218): a dict starting with
the Page entry, then one assignment per region in template order. -/
def pageRow (cellText : Region → String) (fields : List String) (boxes : List Region)
    (pageNum : ℕ) : List (String × Cell) :=
  insertCells [("Page", Cell.num pageNum)] (fields.zip (boxes.map cellText))

/-- all_pages_data (main.py lines 213 to 219): one row per page, in page
order, with 1-based page numbers. -/
def allPagesData {α : Type} (crop : α → ℤ → ℤ → ℤ → ℤ → Except String α)
    (preprocess : α → List String → α)
    (imageToString : α → String → Except String String)
    (pages : List α) (regions : List Region) (fieldNames : List (String × String))
    (language : String) (opts : List String) (scaleW scaleH : ℚ) :
    List (List (String × Cell)) :=
  let fields := fieldNamesList fieldNames regions
  let boxes := scaledBoxes scaleW scaleH regions
  pages.enum.map (fun q =>
    pageRow (fun box => performOcr crop preprocess imageToString q.2 box language opts)
      fields boxes (q.1 + 1))

/-- Canvas drawing state stored under the regions key of a template: the json
document whose objects entry is the rectangle list. -/
structure CanvasDoc where
  objects : List Region
  deriving DecidableEq

/-- Template document with top-level keys regions and field_names, both
optional on load (main.py lines 129 to 135 and 185 to 188). -/
structure TemplateDoc where
  regions : Option CanvasDoc
  field_names : Option (List (String × String))

/-- template_to_save (main.py lines 185 to 188): package the current canvas
json and field-name mapping under the two top-level keys. -/
def templateToSave (canvasJson : CanvasDoc) (fieldNames : List (String × String)) : TemplateDoc :=
  { regions := some canvasJson, field_names := some fieldNames }

/-- Template load (main.py lines 130 to 133): regions defaults to None when
missing, field_names defaults to the empty mapping when missing. -/
def loadTemplate (d : TemplateDoc) : Option CanvasDoc × List (String × String) :=
  (d.regions, d.field_names.getD [])

/-- Python runtime errors relevant to the scale computation.  zeroDivision is
what an actual zero denominator raises in Python; degenerateGeometry is the
designated error value named by the specification, included here only so that
the specified outcome can be stated — the code never produces it. -/
inductive PyErr
  | zeroDivision
  | degenerateGeometry
  deriving DecidableEq

/-- Python division of two floats, raising ZeroDivisionError on a zero
denominator. -/
def pyDiv (a b : ℚ) : Except PyErr ℚ :=
  if b = 0 then Except.error PyErr.zeroDivision else Except.ok (a / b)

/-- Scale-factor pipeline for a template page of pixel width w and height h:
canvas_height = 800 * (h / w) (main.py line 152, canvas_width is the constant
800 of line 151), then scale_w = w / 800 and scale_h = h / canvas_height
(main.py lines 198 to 200). -/
def computeScales (w h : ℕ) : Except PyErr (ℚ × ℚ) := do
  let ratio ← pyDiv (h : ℚ) (w : ℚ)
  let canvasHeight := 800 * ratio
  let scaleW ← pyDiv (w : ℚ) 800
  let scaleH ← pyDiv (h : ℚ) canvasHeight
  pure (scaleW, scaleH)

/-- Trivial image collaborators over a unit image type: cropping always
succeeds and recognition always returns the text x. -/
def cropU (_ : Unit) (_l _t _r _b : ℤ) : Except String Unit := Except.ok ()

/-- Preprocessing collaborator over the unit image type. -/
def preU (u : Unit) (_ : List String) : Unit := u

/-- Recognition collaborator over the unit image type, always returning x. -/
def recU (_ : Unit) (_ : String) : Except String String := Except.ok "x"

/-- Image collaborator over natural-number images whose crop records the page
identity plus the left coordinate of the box. -/
def cropN (img : ℕ) (l : ℤ) (_t _r _b : ℤ) : Except String ℕ := Except.ok (img + l.toNat)

/-- Preprocessing collaborator over natural-number images. -/
def preN (img : ℕ) (_ : List String) : ℕ := img

/-- Recognition collaborator over natural-number images that fails exactly on
the crop value 100. -/
def recN (img : ℕ) (_ : String) : Except String String :=
  if img = 100 then Except.error "boom" else Except.ok "ok"

/-- Two-page list of unit images used in concrete instantiations. -/
def pagesW : List Unit := [(), ()]

/-- Two regions with distinct truncated positions. -/
def regionsW : List Region := [⟨0, 0, 8, 8⟩, ⟨80, 0, 8, 8⟩]

/-- Stored field names A and B for the two regions of regionsW. -/
def namesW : List (String × String) := [("region_0_0_0", "A"), ("region_1_80_0", "B")]

lemma exceptBind_ok {ε β γ : Type} (a : β) (f : β → Except ε γ) :
    (Except.ok a : Except ε β) >>= f = f a := rfl

lemma exceptBind_error {ε β γ : Type} (e : ε) (f : β → Except ε γ) :
    (Except.error e : Except ε β) >>= f = Except.error e := rfl

lemma exceptPure {ε β : Type} (a : β) : (pure a : Except ε β) = Except.ok a := rfl

/-- C5: the label-to-code mapping is exactly English to eng, Hindi to hin and
English + Hindi to eng+hin, and the configuration layer offers exactly this
closed three-element enumeration of labels. -/
theorem c5_language_mapping :
    languageOptions = ["English", "Hindi", "English + Hindi"] ∧
    languageOptions.map langCode = ["eng", "hin", "eng+hin"] ∧
    langCode "English" = "eng" ∧ langCode "Hindi" = "hin" ∧
    langCode "English + Hindi" = "eng+hin" :=
  ⟨rfl, by decide, by decide, by decide, by decide⟩

/-- C10: every language label other than Hindi and English + Hindi — including
arbitrary unrecognized labels — silently selects the OCR language code eng;
the selection is a total function and never fails. -/
theorem c10_unknown_language_defaults (l : String)
    (h1 : l ≠ "Hindi") (h2 : l ≠ "English + Hindi") : langCode l = "eng" := by
  unfold langCode
  rw [if_neg h1, if_neg h2]

theorem c10_unknown_language_defaults_witness :
    "Klingon" ≠ "Hindi" ∧ "Klingon" ≠ "English + Hindi" ∧ langCode "Klingon" = "eng" :=
  ⟨by decide, by decide, c10_unknown_language_defaults "Klingon" (by decide) (by decide)⟩

/-- C8: loading the saved template document restores the identical canvas
region geometry and the identical identity-key-to-field-name mapping. -/
theorem c8_template_roundtrip (c : CanvasDoc) (f : List (String × String)) :
    loadTemplate (templateToSave c f) = (some c, f) := rfl

/-- C7: a region at 0-based ordinal i whose identity key has no entry in the
field_names mapping is named Field_ followed by i+1, both as the default shown
in the naming form and as the column name used at extraction time. -/
theorem c7_default_field_name (fieldNames : List (String × String)) (i : ℕ) (r : Region)
    (h : lookupName fieldNames (regionKey i r) = none) :
    formDefaultName fieldNames i r = "Field_" ++ toString (i + 1) ∧
    fieldNameFor fieldNames i r = "Field_" ++ toString (i + 1) := by
  constructor
  · unfold formDefaultName
    rw [h]
    rfl
  · unfold fieldNameFor
    rw [h]
    rfl

theorem c7_default_field_name_witness :
    lookupName [] (regionKey 2 ⟨7 / 2, 7, 10, 10⟩) = none ∧
    formDefaultName [] 2 ⟨7 / 2, 7, 10, 10⟩ = "Field_3" ∧
    fieldNameFor [] 2 ⟨7 / 2, 7, 10, 10⟩ = "Field_3" := by
  have h := c7_default_field_name [] 2 ⟨7 / 2, 7, 10, 10⟩ rfl
  exact ⟨rfl, h.1, h.2⟩

/-- C2: with scale factors source over canvas, every region is mapped
componentwise by the scale product, and the full-canvas region (0, 0,
canvas_width, canvas_height) maps exactly to (0, 0, source_width,
source_height). -/
theorem c2_scale_roundtrip (canvasW canvasH sourceW sourceH : ℚ)
    (hcw : 0 < canvasW) (hch : 0 < canvasH) (_hsw : 0 < sourceW) (_hsh : 0 < sourceH) :
    (∀ r : Region, scaledBox (sourceW / canvasW) (sourceH / canvasH) r =
      { left := r.left * (sourceW / canvasW), top := r.top * (sourceH / canvasH),
        width := r.width * (sourceW / canvasW), height := r.height * (sourceH / canvasH) }) ∧
    scaledBox (sourceW / canvasW) (sourceH / canvasH)
        { left := 0, top := 0, width := canvasW, height := canvasH } =
      { left := 0, top := 0, width := sourceW, height := sourceH } := by
  constructor
  · intro r
    rfl
  · have hcw' : canvasW ≠ 0 := ne_of_gt hcw
    have hch' : canvasH ≠ 0 := ne_of_gt hch
    have h1 : canvasW * (sourceW / canvasW) = sourceW := by
      rw [mul_comm]
      exact div_mul_cancel₀ _ hcw'
    have h2 : canvasH * (sourceH / canvasH) = sourceH := by
      rw [mul_comm]
      exact div_mul_cancel₀ _ hch'
    show Region.mk (0 * (sourceW / canvasW)) (0 * (sourceH / canvasH))
        (canvasW * (sourceW / canvasW)) (canvasH * (sourceH / canvasH)) =
      Region.mk 0 0 sourceW sourceH
    rw [zero_mul, zero_mul, h1, h2]

theorem c2_scale_roundtrip_witness :
    (0 : ℚ) < 800 ∧ (0 : ℚ) < 400 ∧ (0 : ℚ) < 1600 ∧ (0 : ℚ) < 200 ∧
    scaledBox ((1600 : ℚ) / 800) ((200 : ℚ) / 400)
        { left := 0, top := 0, width := 800, height := 400 } =
      { left := 0, top := 0, width := 1600, height := 200 } :=
  ⟨by norm_num, by norm_num, by norm_num, by norm_num,
    (c2_scale_roundtrip 800 400 1600 200 (by norm_num) (by norm_num) (by norm_num)
      (by norm_num)).2⟩

/-- C9 counterexample: for a template page of width zero the scale pipeline
fails with an unguarded ZeroDivisionError, not with the designated
DegenerateGeometry error value the claim requires. -/
theorem c9_counterexample :
    computeScales 0 100 = Except.error PyErr.zeroDivision ∧
    computeScales 0 100 ≠ Except.error PyErr.degenerateGeometry := by
  refine ⟨rfl, ?_⟩
  intro hcontra
  rw [show computeScales 0 100 = Except.error PyErr.zeroDivision from rfl] at hcontra
  exact PyErr.noConfusion (Except.error.inj hcontra)

/-- C9 amended: with the constant canvas width 800 and a template page of
positive pixel width and height the scale computation succeeds with the
quotients the code writes; for a page of width zero it fails with the Python
ZeroDivisionError of the unguarded height over width division. -/
theorem c9_scale_computation (w h : ℕ) (hw : 0 < w) (hh : 0 < h) :
    computeScales w h =
      Except.ok ((w : ℚ) / 800, (h : ℚ) / (800 * ((h : ℚ) / (w : ℚ)))) ∧
    computeScales 0 h = Except.error PyErr.zeroDivision := by
  constructor
  · have hw' : (w : ℚ) ≠ 0 := Nat.cast_ne_zero.mpr (Nat.pos_iff_ne_zero.mp hw)
    have hh' : (h : ℚ) ≠ 0 := Nat.cast_ne_zero.mpr (Nat.pos_iff_ne_zero.mp hh)
    have h800 : (800 : ℚ) ≠ 0 := by norm_num
    have hdiv : (h : ℚ) / (w : ℚ) ≠ 0 := div_ne_zero hh' hw'
    have hch : (800 : ℚ) * ((h : ℚ) / (w : ℚ)) ≠ 0 := mul_ne_zero h800 hdiv
    simp only [computeScales, pyDiv, if_neg hw', if_neg h800, if_neg hch,
      exceptBind_ok, exceptPure]
  · have hz : ((0 : ℕ) : ℚ) = 0 := Nat.cast_zero
    simp only [computeScales, pyDiv, hz, if_pos rfl, if_true, exceptBind_error]

theorem c9_scale_computation_witness :
    0 < 100 ∧ 0 < 50 ∧
    computeScales 100 50 =
      Except.ok (((100 : ℕ) : ℚ) / 800, ((50 : ℕ) : ℚ) / (800 * (((50 : ℕ) : ℚ) / ((100 : ℕ) : ℚ)))) ∧
    computeScales 0 50 = Except.error PyErr.zeroDivision :=
  ⟨by decide, by decide, (c9_scale_computation 100 50 (by decide) (by decide)).1,
    (c9_scale_computation 100 50 (by decide) (by decide)).2⟩

lemma performOcr_attempt_none {α : Type} (crop : α → ℤ → ℤ → ℤ → ℤ → Except String α)
    (preprocess : α → List String → α) (imageToString : α → String → Except String String)
    (image : α) (box : Region) (language : String) (opts : List String)
    (h : performOcrAttempt crop preprocess imageToString image box language opts =
      Except.ok none) :
    performOcr crop preprocess imageToString image box language opts = "" := by
  unfold performOcr
  rw [h]

lemma performOcr_attempt_error {α : Type} (crop : α → ℤ → ℤ → ℤ → ℤ → Except String α)
    (preprocess : α → List String → α) (imageToString : α → String → Except String String)
    (image : α) (box : Region) (language : String) (opts : List String) (e : String)
    (h : performOcrAttempt crop preprocess imageToString image box language opts =
      Except.error e) :
    performOcr crop preprocess imageToString image box language opts = "" := by
  unfold performOcr
  rw [h]

/-- C4: a region whose canvas-space width or height is zero — or whose scaled
box truncates to a non-positive integer width or height — skips recognition
entirely (the try body falls through for every crop, preprocessing and
recognition collaborator, every page image, every language and every
preprocessing option set) and contributes the empty string, without failing. -/
theorem c4_degenerate_region {α : Type} (crop : α → ℤ → ℤ → ℤ → ℤ → Except String α)
    (preprocess : α → List String → α) (imageToString : α → String → Except String String)
    (image : α) (language : String) (opts : List String) (scaleW scaleH : ℚ) (r : Region)
    (h : r.width = 0 ∨ r.height = 0 ∨
      pyInt (r.width * scaleW) ≤ 0 ∨ pyInt (r.height * scaleH) ≤ 0) :
    performOcrAttempt crop preprocess imageToString image (scaledBox scaleW scaleH r)
        language opts = Except.ok none ∧
    performOcr crop preprocess imageToString image (scaledBox scaleW scaleH r)
        language opts = "" := by
  have hwid : (scaledBox scaleW scaleH r).width = r.width * scaleW := rfl
  have hhei : (scaledBox scaleW scaleH r).height = r.height * scaleH := rfl
  have hcond : ¬ (0 < pyInt ((scaledBox scaleW scaleH r).width) ∧
      0 < pyInt ((scaledBox scaleW scaleH r).height)) := by
    rw [hwid, hhei]
    rcases h with h | h | h | h
    · rw [h, zero_mul]
      intro hc
      exact absurd hc.1 (by decide)
    · rw [h, zero_mul]
      intro hc
      exact absurd hc.2 (by decide)
    · intro hc
      exact absurd hc.1 (not_lt.mpr h)
    · intro hc
      exact absurd hc.2 (not_lt.mpr h)
  have hAtt : performOcrAttempt crop preprocess imageToString image
      (scaledBox scaleW scaleH r) language opts = Except.ok none := by
    simp only [performOcrAttempt, if_neg hcond, exceptPure]
  exact ⟨hAtt, performOcr_attempt_none _ _ _ _ _ _ _ hAtt⟩

theorem c4_degenerate_region_witness :
    ((⟨0, 0, 0, 5⟩ : Region).width = 0 ∨ (⟨0, 0, 0, 5⟩ : Region).height = 0 ∨
      pyInt ((⟨0, 0, 0, 5⟩ : Region).width * 1) ≤ 0 ∨
      pyInt ((⟨0, 0, 0, 5⟩ : Region).height * 1) ≤ 0) ∧
    performOcr cropU preU recU () (scaledBox 1 1 ⟨0, 0, 0, 5⟩) "English" [] = "" :=
  ⟨Or.inl rfl,
    (c4_degenerate_region cropU preU recU () "English" [] 1 1 ⟨0, 0, 0, 5⟩ (Or.inl rfl)).2⟩

lemma startsWithWs_dropWhile (l : List Char) :
    startsWithWs (l.dropWhile isPyWhitespace) = false := by
  induction l with
  | nil => rfl
  | cons c t ih =>
    cases hc : isPyWhitespace c
    · rw [List.dropWhile_cons, if_neg (by simp [hc])]
      show isPyWhitespace c = false
      exact hc
    · rw [List.dropWhile_cons, if_pos hc]
      exact ih

lemma lastNot_dropWhile (m : List Char) (h : startsWithWs m.reverse = false) :
    startsWithWs ((m.dropWhile isPyWhitespace).reverse) = false := by
  induction m with
  | nil => rfl
  | cons c t ih =>
    cases hc : isPyWhitespace c
    · rw [List.dropWhile_cons, if_neg (by simp [hc])]
      exact h
    · rw [List.dropWhile_cons, if_pos hc]
      cases htr : t.reverse with
      | nil =>
        have ht : t = [] := List.reverse_eq_nil_iff.mp htr
        subst ht
        rfl
      | cons d rest =>
        apply ih
        rw [htr]
        rw [List.reverse_cons, htr] at h
        simpa [startsWithWs] using h

lemma startsWithWs_strip (l : List Char) : startsWithWs (stripChars l) = false := by
  unfold stripChars
  apply lastNot_dropWhile
  rw [List.reverse_reverse]
  exact startsWithWs_dropWhile l

lemma endsWithWs_strip (l : List Char) :
    startsWithWs (stripChars l).reverse = false := by
  unfold stripChars
  rw [List.reverse_reverse]
  exact startsWithWs_dropWhile _

lemma replaceNl_head_not_ws (l : List Char) (h : startsWithWs l = false) :
    startsWithWs (replaceNl l) = false := by
  cases l with
  | nil => rfl
  | cons c t =>
    have hc : isPyWhitespace c = false := h
    have hcn : c ≠ '\n' := by
      intro hcontra
      subst hcontra
      exact absurd hc (by decide)
    simp [replaceNl, startsWithWs, hcn, hc]

lemma containsNewline_replaceNl (l : List Char) :
    containsNewline (replaceNl l) = false := by
  induction l with
  | nil => rfl
  | cons c t ih =>
    by_cases hc : c = '\n' <;>
      simp [replaceNl, containsNewline, hc] at ih ⊢ <;> exact ih

/-- C6 counterexample: for OCR text holding two consecutive newlines the
stored cell value contains two consecutive spaces, because the cleanup
replaces each newline by one space and does not collapse runs. -/
theorem c6_counterexample :
    performOcr cropU preU (fun _ _ => Except.ok "a\n\nb") () ⟨0, 0, 5, 5⟩
        "English" [] = "a  b" ∧
    hasConsecutiveSpaces (String.data "a  b") = true :=
  ⟨rfl, rfl⟩

/-- C6 amended: the stored value is the recognised text stripped of leading
and trailing whitespace with each remaining newline then replaced by a single
space; consequently it contains no newline and no leading or trailing
whitespace, though consecutive newlines yield consecutive spaces. -/
theorem c6_text_cleanup (s : String) :
    (cleanText s).data = replaceNl (stripChars s.data) ∧
    containsNewline (cleanText s).data = false ∧
    startsWithWs (cleanText s).data = false ∧
    startsWithWs (cleanText s).data.reverse = false := by
  refine ⟨rfl, containsNewline_replaceNl _, replaceNl_head_not_ws _ (startsWithWs_strip _), ?_⟩
  have hx : (replaceNl (stripChars s.data)).reverse = replaceNl ((stripChars s.data).reverse) := by
    simp [replaceNl, List.map_reverse]
  show startsWithWs (replaceNl (stripChars s.data)).reverse = false
  rw [hx]
  exact replaceNl_head_not_ws _ (endsWithWs_strip _)

lemma enumFrom_length {α : Type} (n : ℕ) (l : List α) :
    (List.enumFrom n l).length = l.length := by
  induction l generalizing n with
  | nil => rfl
  | cons a t ih => simp [List.enumFrom, ih]

lemma enumFrom_get_eq {α : Type} (l : List α) : ∀ (n i : ℕ),
    (List.enumFrom n l).get? i = (l.get? i).map (fun a => (n + i, a)) := by
  induction l with
  | nil =>
    intro n i
    simp [List.enumFrom]
  | cons a t ih =>
    intro n i
    cases i with
    | zero => simp [List.enumFrom]
    | succ j =>
      have hn : n + 1 + j = n + (j + 1) := by omega
      simp only [List.enumFrom, List.get?_cons_succ, ih (n + 1) j, hn]

lemma fieldNamesList_length (fieldNames : List (String × String)) (regions : List Region) :
    (fieldNamesList fieldNames regions).length = regions.length := by
  simp [fieldNamesList, List.enum, enumFrom_length]

lemma scaledBoxes_length (scaleW scaleH : ℚ) (regions : List Region) :
    (scaledBoxes scaleW scaleH regions).length = regions.length := by
  simp [scaledBoxes]

lemma dictInsert_append (row : List (String × Cell)) (k : String) (v : Cell)
    (h : ∀ q ∈ row, q.1 ≠ k) : dictInsert row k v = row ++ [(k, v)] := by
  induction row with
  | nil => rfl
  | cons q rest ih =>
    have hq : q.1 ≠ k := h q (List.mem_cons_self q rest)
    simp only [dictInsert, if_neg hq]
    rw [ih (fun x hx => h x (List.mem_cons_of_mem q hx))]
    rfl

lemma insertCells_append : ∀ (pairs : List (String × String)) (row : List (String × Cell)),
    (∀ s ∈ pairs, ∀ q ∈ row, q.1 ≠ s.1) → (pairs.map Prod.fst).Nodup →
    insertCells row pairs = row ++ pairs.map (fun s => (s.1, Cell.str s.2)) := by
  intro pairs
  induction pairs with
  | nil =>
    intro row _ _
    simp [insertCells]
  | cons s rest ih =>
    intro row hfresh hnodup
    have hrow : ∀ q ∈ row, q.1 ≠ s.1 := fun q hq => hfresh s (List.mem_cons_self s rest) q hq
    have hd : dictInsert row s.1 (Cell.str s.2) = row ++ [(s.1, Cell.str s.2)] :=
      dictInsert_append row s.1 (Cell.str s.2) hrow
    rw [List.map_cons, List.nodup_cons] at hnodup
    have hfresh' : ∀ s' ∈ rest, ∀ q ∈ row ++ [(s.1, Cell.str s.2)], q.1 ≠ s'.1 := by
      intro s' hs' q hq
      rcases List.mem_append.mp hq with hq | hq
      · exact hfresh s' (List.mem_cons_of_mem s hs') q hq
      · have hqe : q = (s.1, Cell.str s.2) := by simpa using hq
        rw [hqe]
        intro hcontra
        exact hnodup.1 (by rw [hcontra]; exact List.mem_map_of_mem Prod.fst hs')
    have step : insertCells row (s :: rest) = insertCells (row ++ [(s.1, Cell.str s.2)]) rest := by
      rw [insertCells, hd]
    rw [step, ih _ hfresh' hnodup.2, List.append_assoc]
    rfl

lemma pageRow_eq (cellText : Region → String) (fields : List String) (boxes : List Region)
    (n : ℕ) (hnodup : fields.Nodup) (hPage : "Page" ∉ fields)
    (hlen : fields.length ≤ boxes.length) :
    pageRow cellText fields boxes n =
      ("Page", Cell.num n) ::
        (fields.zip (boxes.map cellText)).map (fun s => (s.1, Cell.str s.2)) := by
  have hlen' : fields.length ≤ (boxes.map cellText).length := by simpa using hlen
  have hkeys : (fields.zip (boxes.map cellText)).map Prod.fst = fields :=
    List.map_fst_zip _ _ hlen'
  have hfresh : ∀ s ∈ fields.zip (boxes.map cellText),
      ∀ q ∈ [(("Page" : String), Cell.num n)], q.1 ≠ s.1 := by
    intro s hs q hq
    have hqe : q = ("Page", Cell.num n) := by simpa using hq
    have hs1 : s.1 ∈ fields := by
      rw [← hkeys]
      exact List.mem_map_of_mem Prod.fst hs
    rw [hqe]
    intro hcontra
    apply hPage
    rw [show ("Page" : String) = s.1 from hcontra]
    exact hs1
  have hnodup' : ((fields.zip (boxes.map cellText)).map Prod.fst).Nodup := by
    rw [hkeys]
    exact hnodup
  unfold pageRow
  rw [insertCells_append _ _ hfresh hnodup']
  rfl

lemma allPagesData_get_eq {α : Type} (crop : α → ℤ → ℤ → ℤ → ℤ → Except String α)
    (preprocess : α → List String → α) (imageToString : α → String → Except String String)
    (pages : List α) (regions : List Region) (fieldNames : List (String × String))
    (language : String) (opts : List String) (scaleW scaleH : ℚ)
    (hnodup : (fieldNamesList fieldNames regions).Nodup)
    (hPage : "Page" ∉ fieldNamesList fieldNames regions)
    (i : ℕ) (hi : i < pages.length) :
    (allPagesData crop preprocess imageToString pages regions fieldNames language opts
        scaleW scaleH).get? i =
      some (("Page", Cell.num (i + 1)) ::
        ((fieldNamesList fieldNames regions).zip ((scaledBoxes scaleW scaleH regions).map
          (fun box => performOcr crop preprocess imageToString (pages.get ⟨i, hi⟩)
            box language opts))).map (fun s => (s.1, Cell.str s.2))) := by
  have hlen : (fieldNamesList fieldNames regions).length ≤
      (scaledBoxes scaleW scaleH regions).length := by
    rw [fieldNamesList_length, scaledBoxes_length]
  simp only [allPagesData, List.get?_map, List.enum]
  rw [enumFrom_get_eq, List.get?_eq_get hi]
  simp only [Option.map_some', Nat.zero_add]
  rw [pageRow_eq _ _ _ _ hnodup hPage hlen]

lemma scaledBox_one (r : Region) : scaledBox 1 1 r = r := by
  simp [scaledBox]

lemma scaledBoxes_one (regions : List Region) : scaledBoxes 1 1 regions = regions := by
  induction regions with
  | nil => rfl
  | cons r rest ih =>
    show scaledBox 1 1 r :: scaledBoxes 1 1 rest = r :: rest
    rw [scaledBox_one, ih]

/-- C1 counterexample: with one page and one region whose stored field name is
the reserved column name Page, the extraction result has a single column
(not 1 + 1 = 2 as claimed) and its Page entry holds the OCR text instead of
the page number 1. -/
theorem c1_counterexample :
    allPagesData cropU preU recU [()] [(⟨0, 0, 10, 10⟩ : Region)]
        [("region_0_0_0", "Page")] "English" [] 1 1 = [[("Page", Cell.str "x")]] ∧
    (allPagesData cropU preU recU [()] [(⟨0, 0, 10, 10⟩ : Region)]
        [("region_0_0_0", "Page")] "English" [] 1 1).map (fun row => row.map Prod.fst) =
      [["Page"]] ∧
    (["Page"] : List String) ≠ ["Page", "Page"] ∧
    Cell.str "x" ≠ Cell.num 1 := by
  have htab : allPagesData cropU preU recU [()] [(⟨0, 0, 10, 10⟩ : Region)]
      [("region_0_0_0", "Page")] "English" [] 1 1 = [[("Page", Cell.str "x")]] := by
    simp only [allPagesData, scaledBoxes_one]
    rfl
  refine ⟨htab, ?_, by decide, by decide⟩
  rw [htab]
  rfl

/-- C1 amended: for every extraction run over N pages with pairwise-distinct
field names none of which equals the reserved name Page, the table has one row
per page in page order, every row has exactly the columns Page followed by the
field names in template region order (1 + region count columns), and the Page
value of the 0-based i-th row is i + 1. -/
theorem c1_column_shape {α : Type} (crop : α → ℤ → ℤ → ℤ → ℤ → Except String α)
    (preprocess : α → List String → α) (imageToString : α → String → Except String String)
    (pages : List α) (regions : List Region) (fieldNames : List (String × String))
    (language : String) (opts : List String) (scaleW scaleH : ℚ)
    (_hN : 1 ≤ pages.length)
    (hnodup : (fieldNamesList fieldNames regions).Nodup)
    (hPage : "Page" ∉ fieldNamesList fieldNames regions) :
    (allPagesData crop preprocess imageToString pages regions fieldNames language opts
        scaleW scaleH).length = pages.length ∧
    (fieldNamesList fieldNames regions).length = regions.length ∧
    (∀ i, ∀ hi : i < pages.length,
      ((allPagesData crop preprocess imageToString pages regions fieldNames language opts
          scaleW scaleH).get? i).map (fun row => row.map Prod.fst) =
        some ("Page" :: fieldNamesList fieldNames regions) ∧
      ((allPagesData crop preprocess imageToString pages regions fieldNames language opts
          scaleW scaleH).get? i).bind (fun row => row.get? 0) =
        some ("Page", Cell.num (i + 1))) := by
  refine ⟨?_, fieldNamesList_length _ _, ?_⟩
  · simp [allPagesData, List.enum, enumFrom_length]
  · intro i hi
    rw [allPagesData_get_eq crop preprocess imageToString pages regions fieldNames
      language opts scaleW scaleH hnodup hPage i hi]
    have hlen : (fieldNamesList fieldNames regions).length ≤
        ((scaledBoxes scaleW scaleH regions).map
          (fun box => performOcr crop preprocess imageToString (pages.get ⟨i, hi⟩)
            box language opts)).length := by
      rw [fieldNamesList_length]
      simp [scaledBoxes]
    constructor
    · simp only [Option.map_some', List.map_cons]
      have hcomp : (Prod.fst ∘ fun s : String × String => (s.1, Cell.str s.2)) = Prod.fst :=
        rfl
      rw [List.map_map, hcomp, List.map_fst_zip _ _ hlen]
    · rfl

theorem c1_column_shape_witness :
    1 ≤ pagesW.length ∧
    (fieldNamesList namesW regionsW).Nodup ∧
    "Page" ∉ fieldNamesList namesW regionsW ∧
    (allPagesData cropU preU recU pagesW regionsW namesW "English" [] 1 1).length =
      pagesW.length :=
  ⟨by decide, by decide, by decide,
    (c1_column_shape cropU preU recU pagesW regionsW namesW "English" [] 1 1
      (by decide) (by decide) (by decide)).1⟩

/-- C3: if the try body of perform_ocr fails for one region on one page, that
call contributes the empty string, the failure does not propagate (the result
still has one row per page), and every row consists of the Page number
followed by exactly the values perform_ocr computes for its cells — so cells
other than the failing one are unaffected. -/
theorem c3_partial_failure {α : Type} (crop : α → ℤ → ℤ → ℤ → ℤ → Except String α)
    (preprocess : α → List String → α) (imageToString : α → String → Except String String)
    (pages : List α) (regions : List Region) (fieldNames : List (String × String))
    (language : String) (opts : List String) (scaleW scaleH : ℚ) (p r : ℕ) (e : String)
    (hp : p < pages.length) (hr : r < regions.length)
    (hnodup : (fieldNamesList fieldNames regions).Nodup)
    (hPage : "Page" ∉ fieldNamesList fieldNames regions)
    (hfail : performOcrAttempt crop preprocess imageToString (pages.get ⟨p, hp⟩)
      (scaledBox scaleW scaleH (regions.get ⟨r, hr⟩)) language opts = Except.error e) :
    (allPagesData crop preprocess imageToString pages regions fieldNames language opts
        scaleW scaleH).length = pages.length ∧
    performOcr crop preprocess imageToString (pages.get ⟨p, hp⟩)
        (scaledBox scaleW scaleH (regions.get ⟨r, hr⟩)) language opts = "" ∧
    ((scaledBoxes scaleW scaleH regions).map
        (fun box => performOcr crop preprocess imageToString (pages.get ⟨p, hp⟩)
          box language opts)).get? r = some "" ∧
    (∀ i, ∀ hi : i < pages.length,
      (allPagesData crop preprocess imageToString pages regions fieldNames language opts
          scaleW scaleH).get? i =
        some (("Page", Cell.num (i + 1)) ::
          ((fieldNamesList fieldNames regions).zip ((scaledBoxes scaleW scaleH regions).map
            (fun box => performOcr crop preprocess imageToString (pages.get ⟨i, hi⟩)
              box language opts))).map (fun s => (s.1, Cell.str s.2)))) := by
  have hempty : performOcr crop preprocess imageToString (pages.get ⟨p, hp⟩)
      (scaledBox scaleW scaleH (regions.get ⟨r, hr⟩)) language opts = "" :=
    performOcr_attempt_error _ _ _ _ _ _ _ _ hfail
  refine ⟨?_, hempty, ?_, ?_⟩
  · simp [allPagesData, List.enum, enumFrom_length]
  · simp only [scaledBoxes, List.map_map, List.get?_map, List.get?_eq_get hr,
      Option.map_some', Function.comp_apply]
    rw [show performOcr crop preprocess imageToString (pages.get ⟨p, hp⟩)
        (scaledBox scaleW scaleH (regions.get ⟨r, hr⟩)) language opts = "" from hempty]
  · intro i hi
    exact allPagesData_get_eq crop preprocess imageToString pages regions fieldNames
      language opts scaleW scaleH hnodup hPage i hi

theorem c3_partial_failure_witness :
    performOcrAttempt cropN preN recN (20 : ℕ) (scaledBox 1 1 (⟨80, 0, 8, 8⟩ : Region))
        "English" [] = Except.error "boom" ∧
    (allPagesData cropN preN recN [10, 20] regionsW namesW "English" [] 1 1).length = 2 ∧
    performOcr cropN preN recN (20 : ℕ) (scaledBox 1 1 (⟨80, 0, 8, 8⟩ : Region))
        "English" [] = "" := by
  have hb : performOcrAttempt cropN preN recN (20 : ℕ) (⟨80, 0, 8, 8⟩ : Region)
      "English" [] = Except.error "boom" := rfl
  have hfail : performOcrAttempt cropN preN recN (20 : ℕ)
      (scaledBox 1 1 (⟨80, 0, 8, 8⟩ : Region)) "English" [] = Except.error "boom" := by
    rw [scaledBox_one]
    exact hb
  have h := c3_partial_failure cropN preN recN [10, 20] regionsW namesW "English" [] 1 1
    1 1 "boom" (by decide) (by decide) (by decide) (by decide) hfail
  exact ⟨hfail, h.1, h.2.1⟩
